import Mathlib

/-!
Shallow embedding of the TODO backend (packages/backend/src/app.js):
the item store, its validation logic, and the list sort/filter/search
pipeline, together with theorems checking the specification's claims.

Conventions of the embedding:
* SQLite `TIMESTAMP` columns written by `CURRENT_TIMESTAMP` are modelled by an
  abstract clock of type `Nat` passed to each mutating operation.
* `due_date` is stored as the raw TEXT value the client sent (SQLite stores the
  bound string unchanged), so it is modelled as `Option String`.
* JSON body fields can be absent, `null`, or carry a value.  Fields whose
  claim-relevant values are strings (`description`, `due_date`) are modelled as
  `Option (Option String)` (`none` = absent, `some none` = JSON null,
  `some (some s)` = string `s`).  `name` and `completed` are modelled as
  `Option JVal` to capture the non-string cases the code tests for.
-/

namespace Todo

/-- A JSON scalar value, as far as the backend's checks distinguish them. -/
inductive JVal
  | jStr : String → JVal
  | jNum : Int → JVal
  | jBool : Bool → JVal
  | jNull : JVal
deriving DecidableEq

/-- A row of the `items` table (schema in app.js: id, name, description,
completed, due_date, created_at, updated_at). -/
structure Item where
  id : Nat
  name : String
  description : Option String
  completed : Nat
  due_date : Option String
  created_at : Nat
  updated_at : Nat
deriving DecidableEq

/-- The backing store: the `items` table plus the AUTOINCREMENT counter. -/
structure Store where
  items : List Item
  nextId : Nat
deriving DecidableEq

/-- The empty store right after `CREATE TABLE` (AUTOINCREMENT starts at 1). -/
def store0 : Store := ⟨[], 1⟩

instance instDecEqExcept {ε α : Type} [DecidableEq ε] [DecidableEq α] :
    DecidableEq (Except ε α) := fun a b =>
  match a, b with
  | Except.ok x, Except.ok y =>
    if h : x = y then Decidable.isTrue (congrArg Except.ok h)
    else Decidable.isFalse (fun hc => h (Except.ok.inj hc))
  | Except.ok _, Except.error _ => Decidable.isFalse (fun hc => Except.noConfusion hc)
  | Except.error _, Except.ok _ => Decidable.isFalse (fun hc => Except.noConfusion hc)
  | Except.error e, Except.error f =>
    if h : e = f then Decidable.isTrue (congrArg Except.error h)
    else Decidable.isFalse (fun hc => h (Except.error.inj hc))

/-- A JSON request body for POST/PUT, with the four fields the code reads. -/
structure Body where
  name : Option JVal
  description : Option (Option String)
  completed : Option JVal
  due_date : Option (Option String)
deriving DecidableEq

/-- The error taxonomy of the backend (each maps to one response). -/
inductive Err
  | nameRequired
  | nameTooLong
  | invalidDueDate
  | invalidId
  | notFound
deriving DecidableEq

/-- The exact error strings of app.js. -/
def errMsg : Err → String
  | Err.nameRequired => "Item name is required"
  | Err.nameTooLong => "Item name must not exceed 200 characters"
  | Err.invalidDueDate => "Invalid due date format"
  | Err.invalidId => "Valid item ID is required"
  | Err.notFound => "Item not found"

/-- The HTTP status each error is sent with. -/
def errStatus : Err → Nat
  | Err.notFound => 404
  | _ => 400

/-! ### String primitives used by the embedding -/

/-- Drop leading whitespace characters (the skipping JS `trim`/`parseInt` do). -/
def skipWs : List Char → List Char
  | [] => []
  | c :: rest => if c.isWhitespace then skipWs rest else c :: rest

/-- JS `String.prototype.trim`: strip whitespace from both ends. -/
def jsTrim (s : String) : String :=
  String.mk ((skipWs ((skipWs s.toList).reverse)).reverse)

/-- JS `String.prototype.toLowerCase` (ASCII-faithful). -/
def lowerStr (s : String) : String := String.mk (s.toList.map Char.toLower)

/-- Byte-wise (code-point-wise) lexicographic `≤` on character lists: the
order SQLite's default BINARY collation gives TEXT values. -/
def charsLe : List Char → List Char → Bool
  | [], _ => true
  | _ :: _, [] => false
  | a :: as, b :: bs =>
    if a.toNat < b.toNat then true
    else if b.toNat < a.toNat then false
    else charsLe as bs

/-- SQLite BINARY-collation `≤` on strings. -/
def strLeB (x y : String) : Bool := charsLe x.toList y.toList

/-- Whether `p` occurs at the head of `l`. -/
def charsLead : List Char → List Char → Bool
  | [], _ => true
  | _ :: _, [] => false
  | a :: as, b :: bs => decide (a = b) && charsLead as bs

/-- Whether `p` occurs contiguously anywhere in `l`. -/
def charsSub (p : List Char) : List Char → Bool
  | [] => p.isEmpty
  | c :: rest => charsLead p (c :: rest) || charsSub p rest

/-- JS `String.prototype.includes`: `needle` occurs in `hay`. -/
def strIncludes (hay needle : String) : Bool := charsSub needle.toList hay.toList

/-- Models the host runtime's `new Date(s)` validity check (`!isNaN(getTime())`)
restricted to the date-first ISO-8601 shapes this app's clients send:
`YYYY-MM-DD` optionally followed by a `T...` time part.  Strings of any other
shape (including the empty string) yield an Invalid Date in JS. -/
def jsDateValid (s : String) : Bool :=
  match s.toList with
  | y1 :: y2 :: y3 :: y4 :: '-' :: m1 :: m2 :: '-' :: d1 :: d2 :: rest =>
    y1.isDigit && y2.isDigit && y3.isDigit && y4.isDigit &&
    m1.isDigit && m2.isDigit && d1.isDigit && d2.isDigit &&
    (rest.isEmpty || (match rest with | 'T' :: _ => true | _ => false))
  | _ => false

/-- Models `!isNaN(parseInt(s))` for a string `s`: after skipping leading
whitespace and an optional sign, a decimal digit must follow. -/
def parseIntOk (s : String) : Bool :=
  match skipWs s.toList with
  | '-' :: c :: _ => c.isDigit
  | '+' :: c :: _ => c.isDigit
  | c :: _ => c.isDigit
  | [] => false

/-- The id guard of app.js: `!id || isNaN(parseInt(id))` rejects; this is the
accepting side. -/
def jsIdValid (idStr : String) : Bool :=
  (!(decide (idStr = ""))) && parseIntOk idStr

/-- Decimal digits to a number (accumulator form). -/
def digitsToNat : List Char → Nat → Nat
  | [], acc => acc
  | c :: rest, acc => digitsToNat rest (acc * 10 + (c.toNat - 48))

/-- Parse a non-empty all-digit character list. -/
def decNat? (l : List Char) : Option Nat :=
  if l.isEmpty then none
  else if l.all Char.isDigit then some (digitsToNat l 0) else none

/-- SQLite numeric affinity applied to a TEXT parameter compared against the
INTEGER `id` column: the whole text must be a numeric (integer) literal,
otherwise no row compares equal. -/
def sqlIdOf (s : String) : Option Int :=
  match s.toList with
  | '-' :: rest => (decNat? rest).map (fun n => -(n : Int))
  | '+' :: rest => (decNat? rest).map (fun n => (n : Int))
  | l => (decNat? l).map (fun n => (n : Int))

/-- The row lookup `SELECT * FROM items WHERE id = ?` with a TEXT-bound id. -/
def lookupId (st : Store) (idStr : String) : Option Item :=
  match sqlIdOf idStr with
  | some n => st.items.find? (fun x => decide ((x.id : Int) = n))
  | none => none

/-! ### Validation helpers (the literal conditions of app.js) -/

/-- The `name` body field when it is a string (`typeof name === 'string'`). -/
def nameField (b : Body) : Option String :=
  match b.name with
  | some (JVal.jStr s) => some s
  | _ => none

/-- The condition `!name || typeof name !== 'string' || name.trim() === ''`. -/
def nameMissing (b : Body) : Bool :=
  match nameField b with
  | none => true
  | some s => decide (s = "") || decide (jsTrim s = "")

/-- Whether the body passes both name checks (present/non-blank and length). -/
def nameOk (b : Body) : Bool :=
  match nameField b with
  | none => false
  | some s =>
    (!(decide (s = "") || decide (jsTrim s = ""))) && decide ((jsTrim s).length ≤ 200)

/-- The JS coercion `x || null` applied to a string-or-null-or-absent field:
a non-empty string passes through, everything falsy becomes null. -/
def truthyStr : Option (Option String) → Option String
  | some (some d) => if d = "" then none else some d
  | _ => none

/-- The PUT coercion `completed === true || completed === 1 ? 1 : 0`. -/
def updCompleted (b : Body) : Nat :=
  if b.completed = some (JVal.jBool true) ∨ b.completed = some (JVal.jNum 1) then 1 else 0

/-! ### The store operations -/

/-- The INSERT performed by POST /api/items, plus re-reading the new row:
stores `name.trim()`, `description || null`, completed 0, `due_date || null`,
with both timestamps defaulted to the current time. -/
def insertNew (st : Store) (now : Nat) (nm : String) (b : Body) : Store × Item :=
  (⟨st.items ++ [⟨st.nextId, jsTrim nm, truthyStr b.description, 0,
      truthyStr b.due_date, now, now⟩], st.nextId + 1⟩,
   ⟨st.nextId, jsTrim nm, truthyStr b.description, 0,
      truthyStr b.due_date, now, now⟩)

/-- POST /api/items: validation order is name present/non-blank, then trimmed
length ≤ 200, then (only if `due_date` is truthy) date parse. -/
def createItem (st : Store) (now : Nat) (b : Body) : Except Err (Store × Item) :=
  match nameField b with
  | none => Except.error Err.nameRequired
  | some nm =>
    if nm = "" ∨ jsTrim nm = "" then Except.error Err.nameRequired
    else if 200 < (jsTrim nm).length then Except.error Err.nameTooLong
    else
      match truthyStr b.due_date with
      | some d =>
        if jsDateValid d then Except.ok (insertNew st now nm b)
        else Except.error Err.invalidDueDate
      | none => Except.ok (insertNew st now nm b)

/-- The UPDATE ... WHERE id = ? effect: replace every row carrying the id. -/
def replaceItem (st : Store) (newIt : Item) : Store :=
  ⟨st.items.map (fun x => if x.id = newIt.id then newIt else x), st.nextId⟩

/-- The row PUT writes for an existing row `old`, and the store after. -/
def updApply (st : Store) (now : Nat) (old : Item) (nm : String) (b : Body) :
    Store × Item :=
  (replaceItem st ⟨old.id, jsTrim nm, truthyStr b.description, updCompleted b,
      truthyStr b.due_date, old.created_at, now⟩,
   ⟨old.id, jsTrim nm, truthyStr b.description, updCompleted b,
      truthyStr b.due_date, old.created_at, now⟩)

/-- PUT /api/items/:id: id guard, existence check, then the same name and
due-date validation as create, then the UPDATE (refreshing `updated_at`). -/
def updateItem (st : Store) (now : Nat) (idStr : String) (b : Body) :
    Except Err (Store × Item) :=
  if jsIdValid idStr = false then Except.error Err.invalidId
  else
    match lookupId st idStr with
    | none => Except.error Err.notFound
    | some old =>
      match nameField b with
      | none => Except.error Err.nameRequired
      | some nm =>
        if nm = "" ∨ jsTrim nm = "" then Except.error Err.nameRequired
        else if 200 < (jsTrim nm).length then Except.error Err.nameTooLong
        else
          match truthyStr b.due_date with
          | some d =>
            if jsDateValid d then Except.ok (updApply st now old nm b)
            else Except.error Err.invalidDueDate
          | none => Except.ok (updApply st now old nm b)

/-- PATCH /api/items/:id: id guard, existence check, flip
`completed === 1 ? 0 : 1`, refresh `updated_at`, leave the rest. -/
def toggleItem (st : Store) (now : Nat) (idStr : String) :
    Except Err (Store × Item) :=
  if jsIdValid idStr = false then Except.error Err.invalidId
  else
    match lookupId st idStr with
    | none => Except.error Err.notFound
    | some old =>
      Except.ok (replaceItem st ⟨old.id, old.name, old.description,
          (if old.completed = 1 then 0 else 1), old.due_date, old.created_at, now⟩,
        ⟨old.id, old.name, old.description,
          (if old.completed = 1 then 0 else 1), old.due_date, old.created_at, now⟩)

/-- GET /api/items/:id: id guard, then lookup. -/
def getById (st : Store) (idStr : String) : Except Err Item :=
  if jsIdValid idStr = false then Except.error Err.invalidId
  else
    match lookupId st idStr with
    | none => Except.error Err.notFound
    | some it => Except.ok it

/-- DELETE /api/items/:id: id guard, existence check, then
`DELETE FROM items WHERE id = ?` (the HTTP layer answers with
`parseInt(id)` as confirmation). -/
def deleteItem (st : Store) (idStr : String) : Except Err Store :=
  if jsIdValid idStr = false then Except.error Err.invalidId
  else
    match lookupId st idStr with
    | none => Except.error Err.notFound
    | some _ =>
      match sqlIdOf idStr with
      | some n => Except.ok ⟨st.items.filter (fun x => !(decide ((x.id : Int) = n))), st.nextId⟩
      | none => Except.error Err.notFound

/-! ### The list pipeline (GET /api/items) -/

/-- The backing field `getSortClause` selects (`validSorts[sort] || 'created_at'`). -/
inductive SField
  | fDue
  | fName
  | fCreated
deriving DecidableEq

/-- The `validSorts` map with its `created_at` fallback. -/
def sortFieldOf : Option String → SField
  | some "date" => SField.fDue
  | some "name" => SField.fName
  | some "created" => SField.fCreated
  | _ => SField.fCreated

/-- The ORDER BY comparison getSortClause builds: for `due_date` the clause is
`due_date IS NULL, due_date ASC|DESC` (rows lacking a due date ordered last in
both directions); for the other fields plain BINARY / numeric comparison in the
requested direction. -/
def itemLe (f : SField) (asc : Bool) (a b : Item) : Bool :=
  match f with
  | SField.fName => if asc then strLeB a.name b.name else strLeB b.name a.name
  | SField.fCreated =>
    if asc then decide (a.created_at ≤ b.created_at)
    else decide (b.created_at ≤ a.created_at)
  | SField.fDue =>
    match a.due_date, b.due_date with
    | none, none => true
    | none, some _ => false
    | some _, none => true
    | some x, some y => if asc then strLeB x y else strLeB y x

/-- `itemLe` as a relation, for sorting. -/
def itemRel (f : SField) (asc : Bool) : Item → Item → Prop :=
  fun a b => itemLe f asc a b = true

instance instItemRelDec (f : SField) (asc : Bool) : DecidableRel (itemRel f asc) :=
  fun a b => instDecidableEqBool (itemLe f asc a b) true

/-- The ORDER BY stage of the SELECT. -/
def sortItems (f : SField) (asc : Bool) (l : List Item) : List Item :=
  List.insertionSort (itemRel f asc) l

/-- One row's search test: trimmed lowercased term occurs in the name or in
the (non-null) description. -/
def matchesSearch (term : String) (it : Item) : Bool :=
  ((!(decide (it.name = ""))) && strIncludes (lowerStr it.name) term) ||
  (match it.description with
   | some d => (!(decide (d = ""))) && strIncludes (lowerStr d) term
   | none => false)

/-- The completion filter of `applyFilters`. -/
def filterStage (items : List Item) (filter : Option String) : List Item :=
  if filter = some "complete" then items.filter (fun it => decide (it.completed = 1))
  else if filter = some "incomplete" then items.filter (fun it => decide (it.completed = 0))
  else items

/-- The search filter of `applyFilters` (active when `search && search.trim()`
is truthy). -/
def searchStage (items : List Item) (search : Option String) : List Item :=
  match search with
  | some s =>
    if (!(decide (s = ""))) && (!(decide (jsTrim s = ""))) then
      items.filter (matchesSearch (lowerStr (jsTrim s)))
    else items
  | none => items

/-- `applyFilters` of app.js: the completion filter, then the in-memory search
filter, both order-preserving. -/
def applyFilters (items : List Item) (filter search : Option String) : List Item :=
  searchStage (filterStage items filter) search

/-- GET /api/items: SELECT with the ORDER BY from `getSortClause`
(`order === 'asc' ? 'ASC' : 'DESC'`), then the in-memory filters. -/
def listItems (st : Store) (sort order filter search : Option String) : List Item :=
  applyFilters (sortItems (sortFieldOf sort) (decide (order = some "asc")) st.items)
    filter search

/-! ### Traces of mutating requests, for reachability invariants -/

/-- A mutating API request, tagged with the wall-clock time SQLite's
`CURRENT_TIMESTAMP` would observe while serving it. -/
inductive Op
  | opCreate : Nat → Body → Op
  | opUpdate : Nat → String → Body → Op
  | opToggle : Nat → String → Op
  | opDelete : String → Op
deriving DecidableEq

/-- The store after serving one request (a failed request mutates nothing). -/
def applyOp (st : Store) : Op → Store
  | Op.opCreate now b =>
    match createItem st now b with
    | Except.ok p => p.1
    | Except.error _ => st
  | Op.opUpdate now idStr b =>
    match updateItem st now idStr b with
    | Except.ok p => p.1
    | Except.error _ => st
  | Op.opToggle now idStr =>
    match toggleItem st now idStr with
    | Except.ok p => p.1
    | Except.error _ => st
  | Op.opDelete idStr =>
    match deleteItem st idStr with
    | Except.ok s2 => s2
    | Except.error _ => st

/-- The clock reading of a request, when it writes timestamps. -/
def opNow : Op → Option Nat
  | Op.opCreate now _ => some now
  | Op.opUpdate now _ _ => some now
  | Op.opToggle now _ => some now
  | Op.opDelete _ => none

/-- The clock after a request. -/
def clockAfter (c : Nat) (o : Op) : Nat :=
  match opNow o with
  | some t => t
  | none => c

/-- Serve a sequence of requests. -/
def runOps : Store → List Op → Store
  | st, [] => st
  | st, o :: rest => runOps (applyOp st o) rest

/-- The wall clock never runs backwards along the trace. -/
def timesOK : Nat → List Op → Bool
  | _, [] => true
  | c, o :: rest =>
    match opNow o with
    | some t => decide (c ≤ t) && timesOK t rest
    | none => timesOK c rest

/-- The row invariant at clock `c`: timestamps are ordered and bounded by the
clock, and `completed` is one of SQLite's two boolean encodings. -/
def goodItem (c : Nat) (it : Item) : Prop :=
  it.created_at ≤ it.updated_at ∧ it.updated_at ≤ c ∧
    (it.completed = 0 ∨ it.completed = 1)

/-- The store invariant at clock `c`. -/
def InvStore (c : Nat) (st : Store) : Prop := ∀ it ∈ st.items, goodItem c it

/-! ### Order lemmas for the sort comparisons -/

theorem charsLe_total : ∀ x y : List Char, charsLe x y = true ∨ charsLe y x = true := by
  intro x
  induction x with
  | nil => intro y; left; rfl
  | cons a as ih =>
    intro y
    cases y with
    | nil => right; rfl
    | cons b bs =>
      by_cases h1 : a.toNat < b.toNat
      · left; simp [charsLe, h1]
      · by_cases h2 : b.toNat < a.toNat
        · right; simp [charsLe, h2]
        · rcases ih bs with h | h
          · left; simp [charsLe, h1, h2, h]
          · right; simp [charsLe, h1, h2, h]

theorem charsLe_trans :
    ∀ x y z : List Char, charsLe x y = true → charsLe y z = true →
      charsLe x z = true := by
  intro x
  induction x with
  | nil => intro y z _ _; rfl
  | cons a as ih =>
    intro y z hxy hyz
    cases y with
    | nil => simp [charsLe] at hxy
    | cons b bs =>
      cases z with
      | nil => simp [charsLe] at hyz
      | cons c cs =>
        by_cases hab : a.toNat < b.toNat
        · by_cases hbc : b.toNat < c.toNat
          · have hac : a.toNat < c.toNat := Nat.lt_trans hab hbc
            simp [charsLe, hac]
          · by_cases hcb : c.toNat < b.toNat
            · simp [charsLe, hbc, hcb] at hyz
            · have hac : a.toNat < c.toNat := by omega
              simp [charsLe, hac]
        · by_cases hba : b.toNat < a.toNat
          · simp [charsLe, hab, hba] at hxy
          · by_cases hbc : b.toNat < c.toNat
            · have hac : a.toNat < c.toNat := by omega
              simp [charsLe, hac]
            · by_cases hcb : c.toNat < b.toNat
              · simp [charsLe, hbc, hcb] at hyz
              · have hnac : ¬ a.toNat < c.toNat := by omega
                have hnca : ¬ c.toNat < a.toNat := by omega
                simp [charsLe, hab, hba] at hxy
                simp [charsLe, hbc, hcb] at hyz
                simp [charsLe, hnac, hnca]
                exact ih bs cs hxy hyz

theorem strLeB_total (x y : String) : strLeB x y = true ∨ strLeB y x = true :=
  charsLe_total x.toList y.toList

theorem strLeB_trans {x y z : String} (h1 : strLeB x y = true)
    (h2 : strLeB y z = true) : strLeB x z = true :=
  charsLe_trans x.toList y.toList z.toList h1 h2

theorem itemLe_due_total (asc : Bool) (a b : Item) :
    itemLe SField.fDue asc a b = true ∨ itemLe SField.fDue asc b a = true := by
  cases hA : a.due_date with
  | none =>
    cases hB : b.due_date with
    | none => left; simp [itemLe, hA, hB]
    | some y => right; simp [itemLe, hA, hB]
  | some x =>
    cases hB : b.due_date with
    | none => left; simp [itemLe, hA, hB]
    | some y =>
      cases asc with
      | true =>
        rcases strLeB_total x y with h | h
        · left; simp [itemLe, hA, hB, h]
        · right; simp [itemLe, hA, hB, h]
      | false =>
        rcases strLeB_total y x with h | h
        · left; simp [itemLe, hA, hB, h]
        · right; simp [itemLe, hA, hB, h]

theorem itemLe_due_trans (asc : Bool) (a b c : Item)
    (hab : itemLe SField.fDue asc a b = true)
    (hbc : itemLe SField.fDue asc b c = true) :
    itemLe SField.fDue asc a c = true := by
  cases hA : a.due_date with
  | none =>
    cases hC : c.due_date with
    | none => simp [itemLe, hA, hC]
    | some z =>
      cases hB : b.due_date with
      | none => simp [itemLe, hB, hC] at hbc
      | some y => simp [itemLe, hA, hB] at hab
  | some x =>
    cases hC : c.due_date with
    | none => simp [itemLe, hA, hC]
    | some z =>
      cases hB : b.due_date with
      | none => simp [itemLe, hB, hC] at hbc
      | some y =>
        cases asc with
        | true =>
          simp [itemLe, hA, hB] at hab
          simp [itemLe, hB, hC] at hbc
          simp [itemLe, hA, hC]
          exact strLeB_trans hab hbc
        | false =>
          simp [itemLe, hA, hB] at hab
          simp [itemLe, hB, hC] at hbc
          simp [itemLe, hA, hC]
          exact strLeB_trans hbc hab

instance instDueTotal (asc : Bool) : IsTotal Item (itemRel SField.fDue asc) :=
  ⟨fun a b => itemLe_due_total asc a b⟩

instance instDueTrans (asc : Bool) : IsTrans Item (itemRel SField.fDue asc) :=
  ⟨fun a b c => itemLe_due_trans asc a b c⟩

/-! ### The list pipeline preserves pairwise order -/

theorem filterStage_sublist (l : List Item) (f : Option String) :
    List.Sublist (filterStage l f) l := by
  unfold filterStage
  split
  · exact List.filter_sublist l
  · split
    · exact List.filter_sublist l
    · exact List.Sublist.refl l

theorem searchStage_sublist (l : List Item) (s : Option String) :
    List.Sublist (searchStage l s) l := by
  unfold searchStage
  split
  · split
    · exact List.filter_sublist l
    · exact List.Sublist.refl l
  · exact List.Sublist.refl l

theorem applyFilters_pairwise {R : Item → Item → Prop} (l : List Item)
    (f s : Option String) (h : l.Pairwise R) :
    (applyFilters l f s).Pairwise R :=
  List.Pairwise.sublist
    (List.Sublist.trans (searchStage_sublist (filterStage l f) s)
      (filterStage_sublist l f)) h

/-- The ordering the specification claims for sort=date: rows lacking a due
date never precede rows having one, and rows both having one are ordered by
their raw stored timestamp value in the requested direction. -/
def dueOrdered (asc : Bool) (a b : Item) : Prop :=
  match a.due_date, b.due_date with
  | none, some _ => False
  | some x, some y => (if asc then strLeB x y else strLeB y x) = true
  | _, _ => True

theorem itemRel_due_imp (asc : Bool) {a b : Item}
    (h : itemRel SField.fDue asc a b) : dueOrdered asc a b := by
  unfold itemRel at h
  unfold dueOrdered
  cases hA : a.due_date with
  | none =>
    cases hB : b.due_date with
    | none => trivial
    | some y => simp [itemLe, hA, hB] at h
  | some x =>
    cases hB : b.due_date with
    | none => trivial
    | some y => simpa [itemLe, hA, hB] using h

/-! ### Inversion of the mutating operations -/

theorem createItem_ok {st : Store} {now : Nat} {b : Body} {st2 : Store} {it : Item}
    (h : createItem st now b = Except.ok (st2, it)) :
    ∃ nm, nameField b = some nm ∧
      it = ⟨st.nextId, jsTrim nm, truthyStr b.description, 0,
            truthyStr b.due_date, now, now⟩ ∧
      st2 = ⟨st.items ++ [it], st.nextId + 1⟩ := by
  unfold createItem at h
  cases hn : nameField b with
  | none => simp only [hn] at h; exact Except.noConfusion h
  | some nm =>
    simp only [hn] at h
    by_cases h1 : nm = "" ∨ jsTrim nm = ""
    · rw [if_pos h1] at h; exact Except.noConfusion h
    · rw [if_neg h1] at h
      by_cases h2 : 200 < (jsTrim nm).length
      · rw [if_pos h2] at h; exact Except.noConfusion h
      · rw [if_neg h2] at h
        refine ⟨nm, rfl, ?_⟩
        cases hd : truthyStr b.due_date with
        | some d =>
          simp only [hd] at h
          by_cases h3 : jsDateValid d = true
          · rw [if_pos h3] at h
            have hp := Except.ok.inj h
            unfold insertNew at hp
            rw [hd, Prod.mk.injEq] at hp
            obtain ⟨hst, hit⟩ := hp
            exact ⟨hit.symm, by rw [← hst, hit]⟩
          · rw [if_neg h3] at h; exact Except.noConfusion h
        | none =>
          simp only [hd] at h
          have hp := Except.ok.inj h
          unfold insertNew at hp
          rw [hd, Prod.mk.injEq] at hp
          obtain ⟨hst, hit⟩ := hp
          exact ⟨hit.symm, by rw [← hst, hit]⟩

theorem updateItem_ok {st : Store} {now : Nat} {idStr : String} {b : Body}
    {st2 : Store} {it : Item}
    (h : updateItem st now idStr b = Except.ok (st2, it)) :
    ∃ old nm, lookupId st idStr = some old ∧ nameField b = some nm ∧
      it = ⟨old.id, jsTrim nm, truthyStr b.description, updCompleted b,
            truthyStr b.due_date, old.created_at, now⟩ ∧
      st2 = replaceItem st it := by
  unfold updateItem at h
  by_cases h0 : jsIdValid idStr = false
  · rw [if_pos h0] at h; exact Except.noConfusion h
  · rw [if_neg h0] at h
    cases hl : lookupId st idStr with
    | none => simp only [hl] at h; exact Except.noConfusion h
    | some old =>
      simp only [hl] at h
      cases hn : nameField b with
      | none => simp only [hn] at h; exact Except.noConfusion h
      | some nm =>
        simp only [hn] at h
        by_cases h1 : nm = "" ∨ jsTrim nm = ""
        · rw [if_pos h1] at h; exact Except.noConfusion h
        · rw [if_neg h1] at h
          by_cases h2 : 200 < (jsTrim nm).length
          · rw [if_pos h2] at h; exact Except.noConfusion h
          · rw [if_neg h2] at h
            refine ⟨old, nm, rfl, rfl, ?_⟩
            cases hd : truthyStr b.due_date with
            | some d =>
              simp only [hd] at h
              by_cases h3 : jsDateValid d = true
              · rw [if_pos h3] at h
                have hp := Except.ok.inj h
                unfold updApply at hp
                rw [hd, Prod.mk.injEq] at hp
                obtain ⟨hst, hit⟩ := hp
                exact ⟨hit.symm, by rw [← hst, hit]⟩
              · rw [if_neg h3] at h; exact Except.noConfusion h
            | none =>
              simp only [hd] at h
              have hp := Except.ok.inj h
              unfold updApply at hp
              rw [hd, Prod.mk.injEq] at hp
              obtain ⟨hst, hit⟩ := hp
              exact ⟨hit.symm, by rw [← hst, hit]⟩

theorem toggleItem_ok {st : Store} {now : Nat} {idStr : String}
    {st2 : Store} {it : Item}
    (h : toggleItem st now idStr = Except.ok (st2, it)) :
    ∃ old, lookupId st idStr = some old ∧
      it = ⟨old.id, old.name, old.description,
            (if old.completed = 1 then 0 else 1), old.due_date,
            old.created_at, now⟩ ∧
      st2 = replaceItem st it := by
  unfold toggleItem at h
  by_cases h0 : jsIdValid idStr = false
  · rw [if_pos h0] at h; exact Except.noConfusion h
  · rw [if_neg h0] at h
    cases hl : lookupId st idStr with
    | none => simp only [hl] at h; exact Except.noConfusion h
    | some old =>
      simp only [hl] at h
      have hp := Except.ok.inj h
      rw [Prod.mk.injEq] at hp
      obtain ⟨hst, hit⟩ := hp
      exact ⟨old, rfl, hit.symm, by rw [← hst, hit]⟩

/-! ### Lookup and replacement lemmas -/

theorem lookupId_mem {st : Store} {idStr : String} {old : Item}
    (h : lookupId st idStr = some old) : old ∈ st.items := by
  unfold lookupId at h
  cases hq : sqlIdOf idStr with
  | none => simp only [hq] at h; exact Option.noConfusion h
  | some n =>
    simp only [hq] at h
    exact List.mem_of_find?_eq_some h

theorem lookupId_id {st : Store} {idStr : String} {old : Item}
    (h : lookupId st idStr = some old) :
    sqlIdOf idStr = some ((old.id : Int)) := by
  unfold lookupId at h
  cases hq : sqlIdOf idStr with
  | none => simp only [hq] at h; exact Option.noConfusion h
  | some n =>
    simp only [hq] at h
    have hp := List.find?_some h
    have he : (old.id : Int) = n := of_decide_eq_true hp
    rw [he]

theorem find?_replace {k : Int} {n : Item} (hn : (n.id : Int) = k) :
    ∀ {l : List Item} {old : Item},
      l.find? (fun x => decide ((x.id : Int) = k)) = some old →
      (l.map (fun x => if x.id = n.id then n else x)).find?
        (fun x => decide ((x.id : Int) = k)) = some n := by
  intro l
  induction l with
  | nil => intro old h; exact Option.noConfusion h
  | cons y ys ih =>
    intro old h
    by_cases hy : (y.id : Int) = k
    · have hyid : y.id = n.id := by
        have hcast : (y.id : Int) = (n.id : Int) := by rw [hy, hn]
        exact_mod_cast hcast
      simp only [List.map_cons, if_pos hyid]
      exact List.find?_cons_of_pos _ (decide_eq_true hn)
    · have hyid : ¬ y.id = n.id := by
        intro he
        exact hy (by rw [he, hn])
      have h2 : ys.find? (fun x => decide ((x.id : Int) = k)) = some old := by
        rw [List.find?_cons_of_neg _ (by simpa using hy)] at h
        exact h
      simp only [List.map_cons, if_neg hyid]
      rw [List.find?_cons_of_neg _ (by simpa using hy)]
      exact ih h2

theorem lookupId_replace {st : Store} {idStr : String} {old : Item}
    (h : lookupId st idStr = some old) (newIt : Item)
    (hid : newIt.id = old.id) :
    lookupId (replaceItem st newIt) idStr = some newIt := by
  have hk := lookupId_id h
  unfold lookupId at h ⊢
  rw [hk] at h ⊢
  simp only at h ⊢
  unfold replaceItem
  exact find?_replace (by rw [hid]) h

theorem mem_replaceItem {st : Store} {newIt old : Item}
    (hmem : old ∈ st.items) (hid : old.id = newIt.id) :
    newIt ∈ (replaceItem st newIt).items := by
  have hmap := List.mem_map_of_mem (fun x => if x.id = newIt.id then newIt else x) hmem
  simp only [if_pos hid] at hmap
  simpa [replaceItem] using hmap

/-! ### Preservation of the store invariant along request traces -/

theorem goodItem_mono {c c2 : Nat} {it : Item} (hc : c ≤ c2) (h : goodItem c it) :
    goodItem c2 it :=
  ⟨h.1, Nat.le_trans h.2.1 hc, h.2.2⟩

theorem invStore_mono {c c2 : Nat} {st : Store} (hc : c ≤ c2) (h : InvStore c st) :
    InvStore c2 st :=
  fun it hit => goodItem_mono hc (h it hit)

theorem invStore_create {c now : Nat} {st : Store} {b : Body} (h : InvStore c st)
    (hc : c ≤ now) {st2 : Store} {it : Item}
    (hr : createItem st now b = Except.ok (st2, it)) : InvStore now st2 := by
  obtain ⟨nm, _, hit, hst⟩ := createItem_ok hr
  intro x hx
  simp only [hst] at hx
  rcases List.mem_append.mp hx with hx | hx
  · exact goodItem_mono hc (h x hx)
  · have hxit : x = it := by simpa using hx
    rw [hxit, hit]
    exact ⟨Nat.le_refl now, Nat.le_refl now, Or.inl rfl⟩

theorem invStore_update {c now : Nat} {st : Store} {idStr : String} {b : Body}
    (h : InvStore c st) (hc : c ≤ now) {st2 : Store} {it : Item}
    (hr : updateItem st now idStr b = Except.ok (st2, it)) : InvStore now st2 := by
  obtain ⟨old, nm, hl, hn, hit, hst⟩ := updateItem_ok hr
  have hold := h old (lookupId_mem hl)
  intro x hx
  simp only [hst, replaceItem] at hx
  rcases List.mem_map.mp hx with ⟨y, hy, hxy⟩
  by_cases hyid : y.id = it.id
  · rw [if_pos hyid] at hxy
    rw [← hxy, hit]
    refine ⟨Nat.le_trans hold.1 (Nat.le_trans hold.2.1 hc), Nat.le_refl now, ?_⟩
    unfold updCompleted
    split
    · exact Or.inr rfl
    · exact Or.inl rfl
  · rw [if_neg hyid] at hxy
    rw [← hxy]
    exact goodItem_mono hc (h y hy)

theorem invStore_toggle {c now : Nat} {st : Store} {idStr : String}
    (h : InvStore c st) (hc : c ≤ now) {st2 : Store} {it : Item}
    (hr : toggleItem st now idStr = Except.ok (st2, it)) : InvStore now st2 := by
  obtain ⟨old, hl, hit, hst⟩ := toggleItem_ok hr
  have hold := h old (lookupId_mem hl)
  intro x hx
  simp only [hst, replaceItem] at hx
  rcases List.mem_map.mp hx with ⟨y, hy, hxy⟩
  by_cases hyid : y.id = it.id
  · rw [if_pos hyid] at hxy
    rw [← hxy, hit]
    refine ⟨Nat.le_trans hold.1 (Nat.le_trans hold.2.1 hc), Nat.le_refl now, ?_⟩
    split
    · exact Or.inl rfl
    · exact Or.inr rfl
  · rw [if_neg hyid] at hxy
    rw [← hxy]
    exact goodItem_mono hc (h y hy)

theorem invStore_delete {c : Nat} {st : Store} {idStr : String}
    (h : InvStore c st) {st2 : Store}
    (hr : deleteItem st idStr = Except.ok st2) : InvStore c st2 := by
  unfold deleteItem at hr
  by_cases h0 : jsIdValid idStr = false
  · rw [if_pos h0] at hr; exact Except.noConfusion hr
  · rw [if_neg h0] at hr
    cases hl : lookupId st idStr with
    | none => simp only [hl] at hr; exact Except.noConfusion hr
    | some old =>
      simp only [hl] at hr
      cases hq : sqlIdOf idStr with
      | none => simp only [hq] at hr; exact Except.noConfusion hr
      | some n =>
        simp only [hq] at hr
        have hst := Except.ok.inj hr
        intro x hx
        simp only [← hst] at hx
        exact h x (List.mem_of_mem_filter hx)

theorem invStore_applyOp {c : Nat} {st : Store} (o : Op) (h : InvStore c st)
    (ht : ∀ t, opNow o = some t → c ≤ t) :
    InvStore (clockAfter c o) (applyOp st o) := by
  cases o with
  | opCreate now b =>
    have hc : c ≤ now := ht now rfl
    simp only [applyOp, clockAfter, opNow]
    cases hr : createItem st now b with
    | ok p =>
      cases p with
      | mk st2 it => exact invStore_create h hc hr
    | error e => exact invStore_mono hc h
  | opUpdate now idStr b =>
    have hc : c ≤ now := ht now rfl
    simp only [applyOp, clockAfter, opNow]
    cases hr : updateItem st now idStr b with
    | ok p =>
      cases p with
      | mk st2 it => exact invStore_update h hc hr
    | error e => exact invStore_mono hc h
  | opToggle now idStr =>
    have hc : c ≤ now := ht now rfl
    simp only [applyOp, clockAfter, opNow]
    cases hr : toggleItem st now idStr with
    | ok p =>
      cases p with
      | mk st2 it => exact invStore_toggle h hc hr
    | error e => exact invStore_mono hc h
  | opDelete idStr =>
    simp only [applyOp, clockAfter, opNow]
    cases hr : deleteItem st idStr with
    | ok s2 => exact invStore_delete h hr
    | error e => exact h

theorem invStore_runOps :
    ∀ (ops : List Op) (c : Nat) (st : Store), timesOK c ops = true →
      InvStore c st → ∃ c2, InvStore c2 (runOps st ops)
  | [], c, _, _, h => ⟨c, h⟩
  | o :: rest, c, st, ht, h => by
    unfold timesOK at ht
    unfold runOps
    cases ho : opNow o with
    | some t =>
      simp only [ho] at ht
      rw [Bool.and_eq_true] at ht
      have hct : c ≤ t := of_decide_eq_true ht.1
      have hai := invStore_applyOp o h
        (fun t2 ht2 => by rw [ho] at ht2; exact (Option.some.inj ht2) ▸ hct)
      have hca : clockAfter c o = t := by unfold clockAfter; rw [ho]
      exact invStore_runOps rest t (applyOp st o) ht.2 (hca ▸ hai)
    | none =>
      simp only [ho] at ht
      have hai := invStore_applyOp o h
        (fun t2 ht2 => by rw [ho] at ht2; exact Option.noConfusion ht2)
      have hca : clockAfter c o = c := by unfold clockAfter; rw [ho]
      exact invStore_runOps rest c (applyOp st o) ht (hca ▸ hai)

theorem invStore_store0 : InvStore 0 store0 :=
  fun it hit => absurd hit (List.not_mem_nil it)

theorem nameOk_spec {b : Body} (h : nameOk b = true) :
    ∃ nm, nameField b = some nm ∧ ¬(nm = "" ∨ jsTrim nm = "") ∧
      ¬(200 < (jsTrim nm).length) := by
  unfold nameOk at h
  cases hn : nameField b with
  | none => simp only [hn] at h; exact Bool.noConfusion h
  | some nm =>
    simp only [hn] at h
    rw [Bool.and_eq_true] at h
    obtain ⟨ha, hb⟩ := h
    refine ⟨nm, rfl, ?_, ?_⟩
    · intro hor
      have hde : (decide (nm = "") || decide (jsTrim nm = "")) = true := by
        rcases hor with h1 | h1
        · rw [decide_eq_true h1]; exact Bool.true_or _
        · rw [decide_eq_true h1]; exact Bool.or_true _
      rw [hde] at ha
      exact Bool.noConfusion ha
    · have hle : (jsTrim nm).length ≤ 200 := of_decide_eq_true hb
      omega

/-! ### Claim scenarios (concrete stores and bodies) -/

/-- Request body creating an item named "a". -/
def c1bodyA : Body := ⟨some (JVal.jStr "a"), none, none, none⟩

/-- Request body creating an item named "B". -/
def c1bodyB : Body := ⟨some (JVal.jStr "B"), none, none, none⟩

/-- The store holding items named "a" (created first) and "B". -/
def c1store : Store := runOps store0 [Op.opCreate 0 c1bodyA, Op.opCreate 1 c1bodyB]

/-- C1: REFUTED.  The SELECT orders names with SQLite's default BINARY
collation, not case-insensitively: on a store holding names "a" and "B",
`sort=name&order=asc` returns ["B", "a"], although lowercase "a" sorts
strictly before lowercase "b" — the order the spec (and the repository's own
test, which compares lowercased adjacent names) requires.  The claim's own
concrete example ["b","A","c"] → ["A","b","c"] does hold, because there the
BINARY order happens to coincide with the case-insensitive one. -/
theorem c1_name_sort_not_case_insensitive :
    (listItems c1store (some "name") (some "asc") none none).map Item.name = ["B", "a"]
    ∧ strLeB (lowerStr "a") (lowerStr "B") = true
    ∧ lowerStr "a" ≠ lowerStr "B"
    ∧ (listItems ⟨[⟨1, "b", none, 0, none, 0, 0⟩, ⟨2, "A", none, 0, none, 1, 1⟩,
        ⟨3, "c", none, 0, none, 2, 2⟩], 4⟩ (some "name") (some "asc") none none).map
        Item.name = ["A", "b", "c"] := by
  decide

/-- Create body whose due_date is the empty string. -/
def c2body : Body := ⟨some (JVal.jStr "a"), none, none, some (some "")⟩

/-- The row the C2 counterexample create produces. -/
def c2item : Item := ⟨1, "a", none, 0, none, 0, 0⟩

/-- C2 counterexample: the empty string does not parse as a valid date, yet a
create whose due_date is "" succeeds and silently stores due_date as null,
because `due_date && due_date !== null` is false for the falsy "" so the
validation is skipped and `due_date || null` coerces "" to null. -/
theorem c2_empty_string_due_date_stored_null :
    c2body.due_date = some (some "") ∧ jsDateValid "" = false ∧
    createItem store0 0 c2body = Except.ok (⟨[c2item], 2⟩, c2item) ∧
    c2item.due_date = none := by
  decide

/-- C2 (amended): for every create or update whose due_date is a NON-EMPTY
string that does not parse as a valid date, the operation fails (no record is
written), and when the body passes name validation the error is precisely
InvalidDueDate; the empty string, however, is treated as absent and stored as
null. -/
theorem c2_nonempty_invalid_due_date_rejected :
    ∀ (st : Store) (now : Nat) (idStr : String) (b : Body) (d : String),
      b.due_date = some (some d) → d ≠ "" → jsDateValid d = false →
      (∀ p, createItem st now b ≠ Except.ok p) ∧
      (∀ q, updateItem st now idStr b ≠ Except.ok q) ∧
      (nameOk b = true → createItem st now b = Except.error Err.invalidDueDate) ∧
      (nameOk b = true → jsIdValid idStr = true →
        (∃ old, lookupId st idStr = some old) →
        updateItem st now idStr b = Except.error Err.invalidDueDate) := by
  intro st now idStr b d hd hne hbad
  have htr : truthyStr b.due_date = some d := by
    rw [hd]; simp only [truthyStr]; rw [if_neg hne]
  have hdov : ¬ (jsDateValid d = true) := by rw [hbad]; exact Bool.false_ne_true
  refine ⟨?_, ?_, ?_, ?_⟩
  · intro p hp
    unfold createItem at hp
    cases hn : nameField b with
    | none => simp only [hn] at hp; exact Except.noConfusion hp
    | some nm =>
      simp only [hn] at hp
      by_cases h1 : nm = "" ∨ jsTrim nm = ""
      · rw [if_pos h1] at hp; exact Except.noConfusion hp
      · rw [if_neg h1] at hp
        by_cases h2 : 200 < (jsTrim nm).length
        · rw [if_pos h2] at hp; exact Except.noConfusion hp
        · rw [if_neg h2] at hp
          simp only [htr] at hp
          rw [if_neg hdov] at hp
          exact Except.noConfusion hp
  · intro q hq
    unfold updateItem at hq
    by_cases h0 : jsIdValid idStr = false
    · rw [if_pos h0] at hq; exact Except.noConfusion hq
    · rw [if_neg h0] at hq
      cases hl : lookupId st idStr with
      | none => simp only [hl] at hq; exact Except.noConfusion hq
      | some old =>
        simp only [hl] at hq
        cases hn : nameField b with
        | none => simp only [hn] at hq; exact Except.noConfusion hq
        | some nm =>
          simp only [hn] at hq
          by_cases h1 : nm = "" ∨ jsTrim nm = ""
          · rw [if_pos h1] at hq; exact Except.noConfusion hq
          · rw [if_neg h1] at hq
            by_cases h2 : 200 < (jsTrim nm).length
            · rw [if_pos h2] at hq; exact Except.noConfusion hq
            · rw [if_neg h2] at hq
              simp only [htr] at hq
              rw [if_neg hdov] at hq
              exact Except.noConfusion hq
  · intro hok
    obtain ⟨nm, hn, hblank, hlen⟩ := nameOk_spec hok
    unfold createItem
    simp only [hn]
    rw [if_neg hblank, if_neg hlen]
    simp only [htr]
    rw [if_neg hdov]
  · intro hok hid hex
    obtain ⟨nm, hn, hblank, hlen⟩ := nameOk_spec hok
    obtain ⟨old, hl⟩ := hex
    have hni : ¬ (jsIdValid idStr = false) := by
      rw [hid]; exact fun hc => Bool.noConfusion hc
    unfold updateItem
    rw [if_neg hni]
    simp only [hl, hn]
    rw [if_neg hblank, if_neg hlen]
    simp only [htr]
    rw [if_neg hdov]

/-- Create body with a non-empty malformed due_date. -/
def c2wbody : Body := ⟨some (JVal.jStr "x"), none, none, some (some "invalid-date")⟩

/-- Witness for C2 (amended) at the string "invalid-date". -/
theorem c2_nonempty_invalid_due_date_rejected_witness :
    createItem store0 3 c2wbody = Except.error Err.invalidDueDate ∧
    updateItem ⟨[c2item], 2⟩ 3 "1" c2wbody = Except.error Err.invalidDueDate :=
  ⟨(c2_nonempty_invalid_due_date_rejected store0 3 "1" c2wbody "invalid-date" rfl
      (by decide) (by decide)).2.2.1 (by decide),
   (c2_nonempty_invalid_due_date_rejected ⟨[c2item], 2⟩ 3 "1" c2wbody "invalid-date" rfl
      (by decide) (by decide)).2.2.2 (by decide) (by decide) ⟨c2item, by decide⟩⟩

/-- C3: for every id string the guard `!id || isNaN(parseInt(id))` rejects,
each of getById, update, toggleCompleted and delete answers InvalidId
(status 400, "Valid item ID is required") for every store — i.e. before any
lookup; for accepted id strings getById never answers InvalidId, and the
lookup either returns the record or yields NotFound. -/
theorem c3_invalid_id_fails_fast :
    errMsg Err.invalidId = "Valid item ID is required" ∧
    errStatus Err.invalidId = 400 ∧
    ∀ (idStr : String) (st : Store) (now : Nat) (b : Body),
      (jsIdValid idStr = false →
        getById st idStr = Except.error Err.invalidId ∧
        updateItem st now idStr b = Except.error Err.invalidId ∧
        toggleItem st now idStr = Except.error Err.invalidId ∧
        deleteItem st idStr = Except.error Err.invalidId) ∧
      (jsIdValid idStr = true →
        getById st idStr ≠ Except.error Err.invalidId ∧
        (lookupId st idStr = none → getById st idStr = Except.error Err.notFound) ∧
        (∀ it, lookupId st idStr = some it → getById st idStr = Except.ok it)) := by
  refine ⟨rfl, rfl, ?_⟩
  intro idStr st now b
  constructor
  · intro h
    refine ⟨?_, ?_, ?_, ?_⟩
    · unfold getById; rw [if_pos h]
    · unfold updateItem; rw [if_pos h]
    · unfold toggleItem; rw [if_pos h]
    · unfold deleteItem; rw [if_pos h]
  · intro h
    have hni : ¬ (jsIdValid idStr = false) := by
      rw [h]; exact fun hc => Bool.noConfusion hc
    refine ⟨?_, ?_, ?_⟩
    · unfold getById
      rw [if_neg hni]
      cases hl : lookupId st idStr with
      | none =>
        simp only [hl]
        exact fun hc => Err.noConfusion (Except.error.inj hc)
      | some it =>
        simp only [hl]
        exact fun hc => Except.noConfusion hc
    · intro hl
      unfold getById
      rw [if_neg hni]
      simp only [hl]
    · intro it hl
      unfold getById
      rw [if_neg hni]
      simp only [hl]

/-- Witness for C3 at the invalid id "abc" and the valid-but-absent id
"999999". -/
theorem c3_invalid_id_fails_fast_witness :
    getById store0 "abc" = Except.error Err.invalidId ∧
    deleteItem store0 "abc" = Except.error Err.invalidId ∧
    getById ⟨[c2item], 2⟩ "999999" = Except.error Err.notFound :=
  ⟨((c3_invalid_id_fails_fast.2.2 "abc" store0 0 c1bodyA).1 (by decide)).1,
   ((c3_invalid_id_fails_fast.2.2 "abc" store0 0 c1bodyA).1 (by decide)).2.2.2,
   ((c3_invalid_id_fails_fast.2.2 "999999" ⟨[c2item], 2⟩ 0 c1bodyA).2 (by decide)).2.1
     (by decide)⟩

/-- C4: for every store and query with sort=date, in the returned sequence a
record with no due_date never precedes a record that has one (for both asc
and desc), and two records both having one appear ordered by their raw stored
timestamp value in the requested direction. -/
theorem c4_date_sort_nulls_last (st : Store) (order filter search : Option String) :
    (listItems st (some "date") order filter search).Pairwise
      (dueOrdered (decide (order = some "asc"))) := by
  unfold listItems
  have h0 : sortFieldOf (some "date") = SField.fDue := rfl
  rw [h0]
  apply applyFilters_pairwise
  have hs := List.sorted_insertionSort
    (itemRel SField.fDue (decide (order = some "asc"))) st.items
  exact List.Pairwise.imp (fun hab => itemRel_due_imp _ hab) hs

/-- C5: create validates in the fixed order name-present/non-blank, then
trimmed length at most 200, then due_date; the first failing check names the
error, a blank or missing name answers "Item name is required", a trimmed
name of 201+ characters answers "Item name must not exceed 200 characters",
and a trimmed name of exactly 200 characters passes both name checks. -/
theorem c5_create_validation_order :
    errMsg Err.nameRequired = "Item name is required" ∧
    errMsg Err.nameTooLong = "Item name must not exceed 200 characters" ∧
    ∀ (st : Store) (now : Nat) (b : Body),
      (nameMissing b = true → createItem st now b = Except.error Err.nameRequired) ∧
      (∀ nm, nameField b = some nm → ¬(nm = "" ∨ jsTrim nm = "") →
        200 < (jsTrim nm).length → createItem st now b = Except.error Err.nameTooLong) ∧
      (∀ nm, nameField b = some nm → ¬(nm = "" ∨ jsTrim nm = "") →
        (jsTrim nm).length = 200 →
        createItem st now b ≠ Except.error Err.nameRequired ∧
        createItem st now b ≠ Except.error Err.nameTooLong) := by
  refine ⟨rfl, rfl, ?_⟩
  intro st now b
  refine ⟨?_, ?_, ?_⟩
  · intro h
    unfold nameMissing at h
    cases hn : nameField b with
    | none =>
      unfold createItem
      simp only [hn]
    | some nm =>
      simp only [hn] at h
      have hor : nm = "" ∨ jsTrim nm = "" := by
        simpa using h
      unfold createItem
      simp only [hn]
      rw [if_pos hor]
  · intro nm hn hblank hlen
    unfold createItem
    simp only [hn]
    rw [if_neg hblank, if_pos hlen]
  · intro nm hn hblank hlen
    have hnl : ¬ 200 < (jsTrim nm).length := by omega
    constructor
    · intro hc
      unfold createItem at hc
      simp only [hn] at hc
      rw [if_neg hblank, if_neg hnl] at hc
      cases hd : truthyStr b.due_date with
      | some d =>
        simp only [hd] at hc
        by_cases h3 : jsDateValid d = true
        · rw [if_pos h3] at hc; exact Except.noConfusion hc
        · rw [if_neg h3] at hc
          exact Err.noConfusion (Except.error.inj hc)
      | none =>
        simp only [hd] at hc
        exact Except.noConfusion hc
    · intro hc
      unfold createItem at hc
      simp only [hn] at hc
      rw [if_neg hblank, if_neg hnl] at hc
      cases hd : truthyStr b.due_date with
      | some d =>
        simp only [hd] at hc
        by_cases h3 : jsDateValid d = true
        · rw [if_pos h3] at hc; exact Except.noConfusion hc
        · rw [if_neg h3] at hc
          exact Err.noConfusion (Except.error.inj hc)
      | none =>
        simp only [hd] at hc
        exact Except.noConfusion hc

/-- Create body with a blank (whitespace-only) name. -/
def c5blankBody : Body := ⟨some (JVal.jStr "   "), none, none, none⟩

/-- Create body with a 201-character name. -/
def c5longBody : Body := ⟨some (JVal.jStr (String.mk (List.replicate 201 'a'))), none, none, none⟩

/-- Create body with a 200-character name. -/
def c5okBody : Body := ⟨some (JVal.jStr (String.mk (List.replicate 200 'a'))), none, none, none⟩

set_option maxRecDepth 40000 in
/-- Witness for C5 at a blank name, a 201-character name, and a 200-character
name. -/
theorem c5_create_validation_order_witness :
    createItem store0 0 c5blankBody = Except.error Err.nameRequired ∧
    createItem store0 0 c5longBody = Except.error Err.nameTooLong ∧
    createItem store0 0 c5okBody ≠ Except.error Err.nameTooLong :=
  ⟨(c5_create_validation_order.2.2 store0 0 c5blankBody).1 (by decide),
   (c5_create_validation_order.2.2 store0 0 c5longBody).2.1 _ rfl (by decide) (by decide),
   ((c5_create_validation_order.2.2 store0 0 c5okBody).2.2 _ rfl (by decide) (by decide)).2⟩

/-- C6: a successful update stores completed = 1 exactly when the body's
completed field is the literal boolean true or the literal number 1, and 0
for every other value (absent included), and the returned row is stored. -/
theorem c6_update_completed_coercion :
    ∀ (st : Store) (now : Nat) (idStr : String) (b : Body) (st2 : Store) (it : Item),
      updateItem st now idStr b = Except.ok (st2, it) →
      it ∈ st2.items ∧
      it.completed =
        (if b.completed = some (JVal.jBool true) ∨ b.completed = some (JVal.jNum 1)
         then 1 else 0) := by
  intro st now idStr b st2 it h
  obtain ⟨old, nm, hl, hn, hit, hst⟩ := updateItem_ok h
  constructor
  · rw [hst]
    exact mem_replaceItem (lookupId_mem hl) (by rw [hit])
  · rw [hit]
    rfl

/-- One-row store for the C6 witness. -/
def c6store : Store := ⟨[⟨1, "a", none, 0, none, 0, 0⟩], 2⟩

/-- Update body carrying completed = 1 (the number). -/
def c6body : Body := ⟨some (JVal.jStr "n"), none, some (JVal.jNum 1), none⟩

/-- The store after the C6 witness update. -/
def c6store2 : Store := ⟨[⟨1, "n", none, 1, none, 0, 7⟩], 2⟩

/-- The row the C6 witness update returns. -/
def c6item : Item := ⟨1, "n", none, 1, none, 0, 7⟩

/-- Witness for C6: updating with completed = 1 stores completed = 1. -/
theorem c6_update_completed_coercion_witness :
    c6item.completed =
      (if c6body.completed = some (JVal.jBool true) ∨ c6body.completed = some (JVal.jNum 1)
       then 1 else 0) ∧ c6item.completed = 1 :=
  ⟨(c6_update_completed_coercion c6store 7 "1" c6body c6store2 c6item (by decide)).2, rfl⟩

/-- Create body whose description is the empty string. -/
def c7body : Body := ⟨some (JVal.jStr "a"), some (some ""), none, none⟩

/-- The row the C7 counterexample create produces. -/
def c7item : Item := ⟨1, "a", none, 0, none, 0, 0⟩

/-- C7 counterexample: a create whose description is the string "" succeeds
but stores (and returns) description as null, not as the given string,
because the INSERT binds `description || null` and "" is falsy. -/
theorem c7_empty_description_stored_null :
    c7body.description = some (some "") ∧
    createItem store0 0 c7body = Except.ok (⟨[c7item], 2⟩, c7item) ∧
    c7item.description = none := by
  decide

/-- C7 (amended): every create and update whose description is a NON-EMPTY
string stores that string exactly as given and returns it unchanged; the
empty string, however, is coerced to null by `description || null`. -/
theorem c7_nonempty_description_stored_as_given :
    ∀ (st : Store) (now : Nat) (idStr : String) (b : Body) (d : String),
      b.description = some (some d) → d ≠ "" →
      (∀ st2 it, createItem st now b = Except.ok (st2, it) → it.description = some d) ∧
      (∀ st2 it, updateItem st now idStr b = Except.ok (st2, it) →
        it.description = some d) := by
  intro st now idStr b d hd hne
  have htr : truthyStr b.description = some d := by
    rw [hd]; simp only [truthyStr]; rw [if_neg hne]
  constructor
  · intro st2 it h
    obtain ⟨nm, hn, hit, hst⟩ := createItem_ok h
    rw [hit]
    exact htr
  · intro st2 it h
    obtain ⟨old, nm, hl, hn, hit, hst⟩ := updateItem_ok h
    rw [hit]
    exact htr

/-- Create body with the non-empty description "hello". -/
def c7wbody : Body := ⟨some (JVal.jStr "a"), some (some "hello"), none, none⟩

/-- The row the C7 witness create produces. -/
def c7witem : Item := ⟨1, "a", some "hello", 0, none, 4, 4⟩

/-- Witness for C7 (amended) at the description "hello". -/
theorem c7_nonempty_description_stored_as_given_witness :
    c7witem.description = some "hello" :=
  (c7_nonempty_description_stored_as_given store0 4 "1" c7wbody "hello" rfl
    (by decide)).1 ⟨[c7witem], 2⟩ c7witem (by decide)

/-- C8: along every clock-monotone trace from the empty store every stored
row satisfies updated_at >= created_at; create stamps both fields with the
current time; successful update and toggleCompleted keep created_at equal to
the stored record's and stamp updated_at with the current time. -/
theorem c8_timestamp_invariant :
    (∀ ops : List Op, timesOK 0 ops = true →
      ∀ it ∈ (runOps store0 ops).items, it.created_at ≤ it.updated_at) ∧
    (∀ (st : Store) (now : Nat) (b : Body) (st2 : Store) (it : Item),
      createItem st now b = Except.ok (st2, it) →
      it.created_at = now ∧ it.updated_at = now) ∧
    (∀ (st : Store) (now : Nat) (idStr : String) (b : Body) (st2 : Store) (it : Item),
      updateItem st now idStr b = Except.ok (st2, it) →
      ∃ old, lookupId st idStr = some old ∧ it.created_at = old.created_at ∧
        it.updated_at = now) ∧
    (∀ (st : Store) (now : Nat) (idStr : String) (st2 : Store) (it : Item),
      toggleItem st now idStr = Except.ok (st2, it) →
      ∃ old, lookupId st idStr = some old ∧ it.created_at = old.created_at ∧
        it.updated_at = now) := by
  refine ⟨?_, ?_, ?_, ?_⟩
  · intro ops ht it hit
    obtain ⟨c2, hinv⟩ := invStore_runOps ops 0 store0 ht invStore_store0
    exact (hinv it hit).1
  · intro st now b st2 it h
    obtain ⟨nm, hn, hit, hst⟩ := createItem_ok h
    exact ⟨by rw [hit], by rw [hit]⟩
  · intro st now idStr b st2 it h
    obtain ⟨old, nm, hl, hn, hit, hst⟩ := updateItem_ok h
    exact ⟨old, hl, by rw [hit], by rw [hit]⟩
  · intro st now idStr st2 it h
    obtain ⟨old, hl, hit, hst⟩ := toggleItem_ok h
    exact ⟨old, hl, by rw [hit], by rw [hit]⟩

/-- A trace creating one item at time 3 and toggling it at time 5. -/
def c8ops : List Op := [Op.opCreate 3 c1bodyA, Op.opToggle 5 "1"]

/-- The row that trace leaves in the store. -/
def c8item : Item := ⟨1, "a", none, 1, none, 3, 5⟩

/-- Witness for C8 on the two-request trace. -/
theorem c8_timestamp_invariant_witness :
    c8item.created_at ≤ c8item.updated_at :=
  c8_timestamp_invariant.1 c8ops (by decide) c8item (by decide)

/-- C9: a successful toggleCompleted flips completed as `completed === 1 ?
0 : 1`, stamps updated_at with the current time, and leaves name,
description, due_date and created_at unchanged; on any store reachable from
empty by a clock-monotone trace, toggling the same row twice restores
completed to its pre-toggle value. -/
theorem c9_toggle_flips_and_restores :
    (∀ (st : Store) (now : Nat) (idStr : String) (st2 : Store) (it : Item),
      toggleItem st now idStr = Except.ok (st2, it) →
      ∃ old, lookupId st idStr = some old ∧
        it.name = old.name ∧ it.description = old.description ∧
        it.due_date = old.due_date ∧ it.created_at = old.created_at ∧
        it.updated_at = now ∧
        it.completed = (if old.completed = 1 then 0 else 1)) ∧
    (∀ (ops : List Op) (now now2 : Nat) (idStr : String)
       (st2 st3 : Store) (it it2 old : Item),
      timesOK 0 ops = true →
      lookupId (runOps store0 ops) idStr = some old →
      toggleItem (runOps store0 ops) now idStr = Except.ok (st2, it) →
      toggleItem st2 now2 idStr = Except.ok (st3, it2) →
      it2.completed = old.completed) := by
  constructor
  · intro st now idStr st2 it h
    obtain ⟨old, hl, hit, hst⟩ := toggleItem_ok h
    exact ⟨old, hl, by rw [hit], by rw [hit], by rw [hit], by rw [hit], by rw [hit],
      by rw [hit]⟩
  · intro ops now now2 idStr st2 st3 it it2 old ht hl h1 h2
    obtain ⟨old1, hl1, hit1, hst1⟩ := toggleItem_ok h1
    have hoe : old1 = old := by rw [hl] at hl1; exact (Option.some.inj hl1).symm
    rw [hoe] at hit1
    have hl2 : lookupId st2 idStr = some it := by
      rw [hst1]
      exact lookupId_replace hl it (by rw [hit1])
    obtain ⟨old2, hl2b, hit2, hst2⟩ := toggleItem_ok h2
    have hoe2 : old2 = it := by rw [hl2] at hl2b; exact (Option.some.inj hl2b).symm
    rw [hoe2] at hit2
    obtain ⟨c2, hinv⟩ := invStore_runOps ops 0 store0 ht invStore_store0
    have hgood := hinv old (lookupId_mem hl)
    have hcomp1 : it.completed = (if old.completed = 1 then 0 else 1) := by rw [hit1]
    have hcomp2 : it2.completed = (if it.completed = 1 then 0 else 1) := by rw [hit2]
    rcases hgood.2.2 with h0 | h1c
    · rw [hcomp2, hcomp1, h0]
      decide
    · rw [hcomp2, hcomp1, h1c]
      decide

/-- A trace creating one item at time 3, for the C9 witness. -/
def c9ops : List Op := [Op.opCreate 3 c1bodyA]

/-- The row that trace creates. -/
def c9old : Item := ⟨1, "a", none, 0, none, 3, 3⟩

/-- The row after the first toggle (time 5). -/
def c9it1 : Item := ⟨1, "a", none, 1, none, 3, 5⟩

/-- The store after the first toggle. -/
def c9st2 : Store := ⟨[c9it1], 2⟩

/-- The row after the second toggle (time 6). -/
def c9it2 : Item := ⟨1, "a", none, 0, none, 3, 6⟩

/-- The store after the second toggle. -/
def c9st3 : Store := ⟨[c9it2], 2⟩

/-- Witness for C9: two toggles restore completed to 0. -/
theorem c9_toggle_flips_and_restores_witness : c9it2.completed = c9old.completed :=
  c9_toggle_flips_and_restores.2 c9ops 5 6 "1" c9st2 c9st3 c9it1 c9it2 c9old
    (by decide) (by decide) (by decide) (by decide)

/-- C10: every successfully created record has completed = 0 — the POST
handler never reads a completed field from the body, so even a body carrying
completed = true or 1 yields a stored, returned row with completed = 0. -/
theorem c10_create_forces_incomplete :
    ∀ (st : Store) (now : Nat) (b : Body) (st2 : Store) (it : Item),
      createItem st now b = Except.ok (st2, it) →
      it.completed = 0 ∧ it ∈ st2.items := by
  intro st now b st2 it h
  obtain ⟨nm, hn, hit, hst⟩ := createItem_ok h
  refine ⟨by rw [hit], ?_⟩
  rw [hst]
  simp

/-- Create body carrying completed = true. -/
def c10body : Body := ⟨some (JVal.jStr "x"), none, some (JVal.jBool true), none⟩

/-- The row the C10 witness create produces. -/
def c10item : Item := ⟨1, "x", none, 0, none, 5, 5⟩

/-- The store after the C10 witness create. -/
def c10store : Store := ⟨[c10item], 2⟩

/-- Witness for C10: a create whose body says completed = true still stores
completed = 0. -/
theorem c10_create_forces_incomplete_witness :
    c10body.completed = some (JVal.jBool true) ∧ c10item.completed = 0 :=
  ⟨rfl, (c10_create_forces_incomplete store0 5 c10body c10store c10item (by decide)).1⟩

end Todo
